import Mathlib

/-!
Shallow embedding of the admin dependent-dropdown filtering scripts
(`static/admin/js/filter_pricing_tier.js` and its table-field twin).
Each script defines one routine (`filterPricingTiers` / `filterFields`)
that, on various DOM events, classifies the current admin page from the
URL path, and then either disables the dependent selects, repopulates
them from a remote autocomplete endpoint, or synthesizes options from
inline formset rows.

The DOM state relevant to the routine is embedded explicitly: a select
element is its option list, its current value, its disabled flag and the
stack of help paragraphs right after it; a formset row is its id
attribute, deletion checkbox and input values.  The asynchronous
autocomplete call is embedded by passing the response as a parameter and
collecting the issued requests and console logs as an explicit effect.
-/

namespace Praco

/-- One option element of a select: its value attribute and display text. -/
structure SelectOption where
  value : String
  text : String
deriving DecidableEq

/-- One entry of the autocomplete JSON payload, of shape (id, text);
also the shape of the locally synthesized entries. -/
structure AutoItem where
  id : String
  text : String
deriving DecidableEq

/-- A dependent select element: its options in document order, the value
of the currently selected option (none when no option is selected), the
disabled property, and the help paragraphs attached right after it. -/
structure Sel where
  options : List SelectOption
  selected : Option String
  disabled : Bool
  help : List String
deriving DecidableEq

/-- Values of the options of a select. -/
def optionValues (s : Sel) : List String := s.options.map (fun o => o.value)

/-- jQuery val(v) on a select: selects the option with value v when one
exists, and otherwise leaves no option selected. -/
def setVal (s : Sel) (v : String) : Sel :=
  if v ∈ optionValues s then { s with selected := some v }
  else { s with selected := none }

/-- The option-clearing step of both populators: remove every option but
the first.  When the selected option is removed the browser selects the
first remaining option. -/
def removeNotFirst (s : Sel) : Sel :=
  let opts := s.options.take 1
  let sel :=
    match s.selected with
    | some v =>
        if opts.any (fun o => o.value = v) then some v
        else opts.head?.map (fun o => o.value)
    | none => none
  { s with options := opts, selected := sel }

/-- Append one option built from an autocomplete item, as
new Option(item.text, item.id, false, item.id === selectedValue)
appended to the select: when the strict comparison holds the new option
becomes selected; otherwise, if no option is selected, the browser
selects the first option. -/
def appendItem (selVal : Option String) (it : AutoItem) (s : Sel) : Sel :=
  let s' := { s with options := s.options ++ [SelectOption.mk it.id it.text] }
  if selVal = some it.id then { s' with selected := some it.id }
  else
    match s'.selected with
    | none => { s' with selected := s'.options.head?.map (fun o => o.value) }
    | some _ => s'

/-- The success callback of the autocomplete call: drop every option but
the first, append one option per result, and clear the value when the
previously selected value is truthy and no option carries it any more. -/
def applySuccess (results : List AutoItem) (selVal : Option String) (s : Sel) : Sel :=
  let s1 := removeNotFirst s
  let s2 := results.foldl (fun acc it => appendItem selVal it acc) s1
  match selVal with
  | some v =>
      if v ≠ "" ∧ s2.options.any (fun o => o.value = v) = false then setVal s2 ""
      else s2
  | none => s2

/-- The response of the autocomplete endpoint: a results array of
(id, text) items, or a network or server error. -/
inductive AjaxResponse where
  | success (results : List AutoItem)
  | error
deriving DecidableEq

/-- One issued HTTP request: URL and query parameters. -/
structure AjaxRequest where
  url : String
  params : List (String × String)
deriving DecidableEq

/-- jQuery next-help removal: remove the help paragraph immediately
after the select when there is one. -/
def helpDropNext (s : Sel) : Sel := { s with help := s.help.drop 1 }

/-- Per-select remote population: remove the adjacent help, capture the
selected value, enable the select, issue the request and handle the
response; an error is handled by one console log and nothing else.
Returns the new select state and the emitted console logs. -/
def remoteStep (errLog : String) (resp : AjaxResponse) (s : Sel) : Sel × List String :=
  let s0 := helpDropNext s
  let selVal := s0.selected
  let s1 := { s0 with disabled := false }
  match resp with
  | AjaxResponse.success rs => (applySuccess rs selVal s1, [])
  | AjaxResponse.error => (s1, [errLog])

/-- Per-select local population from previously synthesized items:
remove the adjacent help, capture the selected value, enable, drop the
options after the first, append one option per item, and when no item
was synthesized disable the select and attach the unit's help text. -/
def localStep (emptyHelp : String) (items : List AutoItem) (s : Sel) : Sel :=
  let s0 := helpDropNext s
  let selVal := s0.selected
  let s1 := { s0 with disabled := false }
  let s2 := removeNotFirst s1
  let s3 := items.foldl (fun acc it => appendItem selVal it acc) s2
  if items.length = 0 then { s3 with disabled := true, help := emptyHelp :: s3.help }
  else s3

/-- Help text attached on the Item add screen while no ProductVariant is
selected. -/
def itemHelpMsg : String := "Select a Product Variant to enable this field."

/-- Per-select handling on the Item add screen when no ProductVariant is
selected: disable, clear the value, and replace the adjacent help with
the unit's message. -/
def disableNoParent (s : Sel) : Sel :=
  let s1 := setVal { s with disabled := true } ""
  { s1 with help := itemHelpMsg :: s1.help.drop 1 }

/-- Substring containment over character lists, as the JavaScript
String.includes test. -/
def isSub : List Char → List Char → Bool
  | pat, [] => pat.isEmpty
  | pat, c :: rest => pat.isPrefixOf (c :: rest) || isSub pat rest

/-- String.includes of the page pathname. -/
def containsStr (s pat : String) : Bool := isSub pat.data s.data

/-- Greedy digit span, as the regex token for one or more digits
followed by a literal slash consumes digits. -/
def digitSpan : List Char → List Char × List Char
  | [] => ([], [])
  | c :: cs =>
      if c.isDigit then
        let p := digitSpan cs
        (c :: p.1, p.2)
      else ([], c :: cs)

/-- Prefix of the change-page pattern before the captured digits. -/
def pvMarker : String := "/ecommerce/productvariant/"

/-- Suffix of the change-page pattern after the captured digits. -/
def changeMarker : String := "/change/"

/-- Attempt the change-page regex at one position of the pathname:
the marker, then one or more digits, then the change suffix. -/
def tryMatchAt (s : List Char) : Option (List Char) :=
  if pvMarker.data.isPrefixOf s then
    let rest := s.drop pvMarker.data.length
    let p := digitSpan rest
    if p.1 ≠ [] ∧ changeMarker.data.isPrefixOf p.2 then some p.1 else none
  else none

/-- Leftmost match of the change-page regex over the pathname. -/
def scanDigits : List Char → Option (List Char)
  | [] => none
  | c :: rest =>
      match tryMatchAt (c :: rest) with
      | some ds => some ds
      | none => scanDigits rest

/-- The captured ProductVariant id of the change-page regex, when the
pathname matches it. -/
def extractVariantId (pathname : String) : Option String :=
  (scanDigits pathname.data).map String.mk

/-- Outcome of the context detection at the top of the routine. -/
inductive Outcome where
  | disabledNoParent
  | remote (pid : String)
  | localSynth
  | noop
deriving DecidableEq

/-- Pathname marker of the Item add screen. -/
def itemAddMarker : String := "/ecommerce/item/add/"

/-- Pathname marker of the ProductVariant add screen. -/
def pvAddMarker : String := "/ecommerce/productvariant/add/"

/-- Context detection: on the Item add screen take the ProductVariant id
from the dropdown, disabling the selects when it is empty; on the
ProductVariant add screen take the hidden id input when it is nonempty
and otherwise synthesize locally; on a ProductVariant change screen
extract the id from the pathname; otherwise do nothing. -/
def classify (pathname productVariantVal : String) (hiddenIdVal : Option String) : Outcome :=
  if containsStr pathname itemAddMarker then
    if productVariantVal ≠ "" then Outcome.remote productVariantVal
    else Outcome.disabledNoParent
  else if containsStr pathname pvAddMarker then
    match hiddenIdVal with
    | some v => if v ≠ "" then Outcome.remote v else Outcome.localSynth
    | none => Outcome.localSynth
  else
    match extractVariantId pathname with
    | some d => Outcome.remote d
    | none => Outcome.noop

/-- One pricing-tier inline formset row: its DOM id attribute, deletion
checkbox and input values; an empty string stands for an empty or absent
input. -/
structure PTRow where
  domId : String
  deleteChecked : Bool
  tier_type : String
  range_start : String
  range_end : String
  idInput : String
deriving DecidableEq

/-- The option entry one pricing-tier row contributes: none when marked
for deletion or when a required sub-field is empty, and otherwise the
pair of the row's persisted id (the DOM id as fallback) and the label
built from tier type and range bounds. -/
def ptRowItem (r : PTRow) : Option AutoItem :=
  if r.deleteChecked then none
  else if r.tier_type ≠ "" ∧ r.range_start ≠ "" ∧ r.range_end ≠ "" then
    some (AutoItem.mk (if r.idInput ≠ "" then r.idInput else r.domId)
      (r.tier_type ++ " (" ++ r.range_start ++ "-" ++ r.range_end ++ ")"))
  else none

/-- Entries synthesized from the pricing-tier formset rows. -/
def synthPricingTiers (rows : List PTRow) : List AutoItem := rows.filterMap ptRowItem

/-- One table-field inline formset row. -/
structure TFRow where
  domId : String
  deleteChecked : Bool
  name : String
  field_type : String
  idInput : String
deriving DecidableEq

/-- The option entry one table-field row contributes. -/
def tfRowItem (r : TFRow) : Option AutoItem :=
  if r.deleteChecked then none
  else if r.name ≠ "" ∧ r.field_type ≠ "" then
    some (AutoItem.mk (if r.idInput ≠ "" then r.idInput else r.domId)
      (r.name ++ " (" ++ r.field_type ++ ")"))
  else none

/-- Entries synthesized from the table-field formset rows. -/
def synthTableFields (rows : List TFRow) : List AutoItem := rows.filterMap tfRowItem

/-- The DOM state one routine reads: the page pathname, the value of the
ProductVariant dropdown (empty when absent or unselected), the hidden id
input (none when absent), the matching dependent selects, and the
matching inline formset rows. -/
structure PageState (ρ : Type) where
  pathname : String
  productVariantVal : String
  hiddenIdVal : Option String
  selects : List Sel
  rows : List ρ
deriving DecidableEq

/-- The observable effects of one run: issued HTTP requests and console
logs. -/
structure Effect where
  requests : List AjaxRequest
  logs : List String
deriving DecidableEq

/-- The shared body of both routines, parameterized by the unit's
autocomplete URL, error log text, empty-synthesis help text and per-row
synthesis: classify the page, then disable the selects, populate them
remotely (one request per select, with the parent id and an empty query
term), or populate them from the synthesized row entries. -/
def runFilter {ρ : Type} (url errLog emptyHelp : String) (rowItem : ρ → Option AutoItem)
    (p : PageState ρ) (resp : AjaxResponse) : PageState ρ × Effect :=
  match classify p.pathname p.productVariantVal p.hiddenIdVal with
  | Outcome.disabledNoParent =>
      ({ p with selects := p.selects.map disableNoParent }, Effect.mk [] [])
  | Outcome.remote pid =>
      let req : AjaxRequest := AjaxRequest.mk url [("product_variant_id", pid), ("q", "")]
      let pairs := p.selects.map (remoteStep errLog resp)
      ({ p with selects := pairs.map Prod.fst },
       Effect.mk (p.selects.map (fun _ => req)) (pairs.map Prod.snd).flatten)
  | Outcome.localSynth =>
      let items := p.rows.filterMap rowItem
      ({ p with selects := p.selects.map (localStep emptyHelp items) }, Effect.mk [] [])
  | Outcome.noop => (p, Effect.mk [] [])

/-- Autocomplete URL of the pricing-tier unit. -/
def ptUrl : String := "/admin/ecommerce/pricingtier/autocomplete/"

/-- Console log of the pricing-tier unit on request failure. -/
def ptErrorLog : String := "Error fetching PricingTiers"

/-- Help text of the pricing-tier unit when no row synthesizes. -/
def ptEmptyHelp : String := "Add Pricing Tiers in the Pricing Tier section to enable this field."

/-- The pricing-tier routine. -/
def filterPricingTiers (p : PageState PTRow) (resp : AjaxResponse) : PageState PTRow × Effect :=
  runFilter ptUrl ptErrorLog ptEmptyHelp ptRowItem p resp

/-- Autocomplete URL of the table-field unit. -/
def tfUrl : String := "/admin/ecommerce/tablefield/autocomplete/"

/-- Console log of the table-field unit on request failure. -/
def tfErrorLog : String := "Error fetching TableFields"

/-- Help text of the table-field unit when no row synthesizes. -/
def tfEmptyHelp : String := "Add Table Fields in the Table Field section to enable this field."

/-- The table-field routine. -/
def filterFields (p : PageState TFRow) (resp : AjaxResponse) : PageState TFRow × Effect :=
  runFilter tfUrl tfErrorLog tfEmptyHelp tfRowItem p resp

/-- The DOM events the binders observe. -/
inductive UiEvent where
  | pageLoad
  | productVariantChange
  | formsetAdded (formsetName : String)
  | formsetRemoved (formsetName : String)
  | fieldChange (nameAttr : String)
deriving DecidableEq

/-- Suffix test on the name attribute, as the attribute-suffix selector. -/
def endsWithStr (s sfx : String) : Bool := sfx.data.isSuffixOf s.data

/-- Whether the pricing-tier event binder invokes the routine for an
event: always on page load and ProductVariant change; on formset add and
remove only for the pricing_tiers and items formsets; on a field change
only for the tier-type and range-bound inputs. -/
def ptTriggers : UiEvent → Bool
  | UiEvent.pageLoad => true
  | UiEvent.productVariantChange => true
  | UiEvent.formsetAdded n => n == "pricing_tiers" || n == "items"
  | UiEvent.formsetRemoved n => n == "pricing_tiers" || n == "items"
  | UiEvent.fieldChange nm =>
      endsWithStr nm ("-tier_type") || endsWithStr nm ("-range_start") ||
        endsWithStr nm ("-range_end")

/-- Whether the table-field event binder invokes the routine for an
event. -/
def tfTriggers : UiEvent → Bool
  | UiEvent.pageLoad => true
  | UiEvent.productVariantChange => true
  | UiEvent.formsetAdded n => n == "table_fields" || n == "items"
  | UiEvent.formsetRemoved n => n == "table_fields" || n == "items"
  | UiEvent.fieldChange nm => endsWithStr nm ("-name") || endsWithStr nm ("-field_type")

/-- A canonical admin change-page pathname for a given id digit list. -/
def mkChangePath (ds : List Char) : String :=
  "/admin/ecommerce/productvariant/" ++ String.mk ds ++ "/change/"

/-- Appending one item adds exactly one option at the end. -/
theorem appendItem_options (selVal : Option String) (it : AutoItem) (s : Sel) :
    (appendItem selVal it s).options = s.options ++ [SelectOption.mk it.id it.text] := by
  unfold appendItem
  split
  · rfl
  · cases hsel : s.selected <;> simp [hsel]

/-- Appending one item does not touch the help paragraphs. -/
theorem appendItem_help (selVal : Option String) (it : AutoItem) (s : Sel) :
    (appendItem selVal it s).help = s.help := by
  unfold appendItem
  split
  · rfl
  · cases hsel : s.selected <;> simp [hsel]

/-- Appending one item does not touch the disabled property. -/
theorem appendItem_disabled (selVal : Option String) (it : AutoItem) (s : Sel) :
    (appendItem selVal it s).disabled = s.disabled := by
  unfold appendItem
  split
  · rfl
  · cases hsel : s.selected <;> simp [hsel]

/-- Appending one item when some option is selected: the new item grabs
the selection exactly when its id equals the captured value. -/
theorem appendItem_selected (v : String) (it : AutoItem) (s : Sel) (w : String)
    (h : s.selected = some w) :
    (appendItem (some v) it s).selected = some (if it.id = v then v else w) := by
  unfold appendItem
  by_cases hv : it.id = v
  · simp [hv]
  · have hv' : ¬ (some v = some it.id) := by
      intro hh
      exact hv (Option.some.inj hh).symm
    simp [hv', hv, h]

/-- Folding appendItem appends the mapped options in order. -/
theorem foldAppend_options (selVal : Option String) (rs : List AutoItem) :
    ∀ acc : Sel,
      (rs.foldl (fun a it => appendItem selVal it a) acc).options
        = acc.options ++ rs.map (fun it => SelectOption.mk it.id it.text) := by
  induction rs with
  | nil => intro acc; simp
  | cons it rest ih =>
      intro acc
      simp only [List.foldl_cons, List.map_cons]
      rw [ih, appendItem_options]
      simp

/-- Folding appendItem does not touch help or disabled. -/
theorem foldAppend_help_disabled (selVal : Option String) (rs : List AutoItem) :
    ∀ acc : Sel,
      (rs.foldl (fun a it => appendItem selVal it a) acc).help = acc.help
        ∧ (rs.foldl (fun a it => appendItem selVal it a) acc).disabled = acc.disabled := by
  induction rs with
  | nil => intro acc; exact ⟨rfl, rfl⟩
  | cons it rest ih =>
      intro acc
      simp only [List.foldl_cons]
      rcases ih (appendItem selVal it acc) with ⟨h1, h2⟩
      rw [h1, h2, appendItem_help, appendItem_disabled]
      exact ⟨rfl, rfl⟩

/-- Folding appendItem over a selection that is present: the captured
value ends selected exactly when it occurs among the appended ids. -/
theorem foldAppend_selected (v : String) (rs : List AutoItem) :
    ∀ (acc : Sel) (w : String), acc.selected = some w →
      (rs.foldl (fun a it => appendItem (some v) it a) acc).selected
        = some (if v ∈ rs.map (fun it => it.id) then v else w) := by
  induction rs with
  | nil => intro acc w h; simpa using h
  | cons it rest ih =>
      intro acc w h
      simp only [List.foldl_cons, List.map_cons]
      have hstep := appendItem_selected v it acc w h
      have := ih (appendItem (some v) it acc) (if it.id = v then v else w) hstep
      rw [this]
      by_cases hid : it.id = v
      · simp [hid]
      · have : ¬ v = it.id := fun hh => hid hh.symm
        simp [hid, this]

/-- Setting the value does not change the options. -/
theorem setVal_options (s : Sel) (v : String) : (setVal s v).options = s.options := by
  unfold setVal
  split <;> rfl

/-- Dropping the options after the first of a select whose first option
is the empty placeholder leaves the placeholder selected. -/
theorem removeNotFirst_placeholder (t v : String) (rest : List SelectOption) (s : Sel)
    (hopts : s.options = SelectOption.mk "" t :: rest) (hsel : s.selected = some v) :
    (removeNotFirst s).options = [SelectOption.mk "" t]
      ∧ (removeNotFirst s).selected = some "" := by
  unfold removeNotFirst
  rw [hopts, hsel]
  by_cases hv : v = ""
  · subst hv; simp
  · have : ¬ ("" = v) := fun hh => hv hh.symm
    simp [this]

/-- Options after the success callback: the first option followed by one
option per result. -/
theorem applySuccess_options (rs : List AutoItem) (selVal : Option String) (s : Sel) :
    (applySuccess rs selVal s).options
      = s.options.take 1 ++ rs.map (fun it => SelectOption.mk it.id it.text) := by
  have hfold := foldAppend_options selVal rs (removeNotFirst s)
  have hrm : (removeNotFirst s).options = s.options.take 1 := rfl
  unfold applySuccess
  cases selVal with
  | none => simpa [hrm] using hfold
  | some v =>
      dsimp only
      split
      · rw [setVal_options]
        simpa [hrm] using hfold
      · simpa [hrm] using hfold

/-- Selection after the success callback on a select whose first option
is the empty placeholder: the captured value is retained when it occurs
among the result ids, and the select is cleared to the placeholder
otherwise. -/
theorem applySuccess_selected (t v : String) (rest : List SelectOption) (s : Sel)
    (rs : List AutoItem)
    (hopts : s.options = SelectOption.mk "" t :: rest) (hsel : s.selected = some v) :
    (applySuccess rs (some v) s).selected
      = some (if v ∈ rs.map (fun it => it.id) then v else "") := by
  rcases removeNotFirst_placeholder t v rest s hopts hsel with ⟨hro, hrs⟩
  have hfoldsel := foldAppend_selected v rs (removeNotFirst s) "" hrs
  have hfoldopt := foldAppend_options (some v) rs (removeNotFirst s)
  rw [hro] at hfoldopt
  unfold applySuccess
  by_cases hmem : v ∈ rs.map (fun it => it.id)
  · have hany : ((rs.foldl (fun a it => appendItem (some v) it a)
        (removeNotFirst s)).options.any (fun o => o.value = v)) = true := by
      rw [hfoldopt]
      rcases List.mem_map.mp hmem with ⟨it, hit, hid⟩
      refine List.any_eq_true.mpr ⟨SelectOption.mk it.id it.text, ?_, ?_⟩
      · exact List.mem_append_right _ (List.mem_map_of_mem _ hit)
      · simpa using hid
    simp only [hany]
    simp [hfoldsel, hmem]
  · by_cases hv : v = ""
    · subst hv
      simp [hfoldsel]
    · have hany : ((rs.foldl (fun a it => appendItem (some v) it a)
          (removeNotFirst s)).options.any (fun o => o.value = v)) = false := by
        rw [hfoldopt]
        refine List.any_eq_false.mpr ?_
        intro o ho
        rcases List.mem_append.mp ho with h1 | h2
        · have : o = SelectOption.mk "" t := by simpa using h1
          subst this
          simpa using fun hh => hv hh.symm
        · rcases List.mem_map.mp h2 with ⟨it, hit, rfl⟩
          have hni : ¬ (it.id = v) := fun hh => hmem (List.mem_map.mpr ⟨it, hit, hh⟩)
          simpa using hni
      simp only [hany, hv]
      have hin : ("" : String) ∈ optionValues (rs.foldl (fun a it => appendItem (some v) it a)
          (removeNotFirst s)) := by
        unfold optionValues
        rw [hfoldopt]
        simp
      simp [setVal, hin, hmem, hv]

/-- Selection after dropping the options after the first and folding in
the appended items, on a select whose first option is the empty
placeholder: retained when among the ids, placeholder otherwise. -/
theorem removeFold_selected (t v : String) (rest : List SelectOption) (s : Sel)
    (items : List AutoItem)
    (hopts : s.options = SelectOption.mk "" t :: rest) (hsel : s.selected = some v) :
    (items.foldl (fun acc it => appendItem (some v) it acc) (removeNotFirst s)).selected
      = some (if v ∈ items.map (fun it => it.id) then v else "") := by
  rcases removeNotFirst_placeholder t v rest s hopts hsel with ⟨hro, hrs⟩
  have hfoldsel := foldAppend_selected v items (removeNotFirst s) "" hrs
  simpa using hfoldsel

/-- Selection after local population on a select whose first option is
the empty placeholder: retained when among the synthesized ids, cleared
to the placeholder otherwise. -/
theorem localStep_selected (eh t v : String) (rest : List SelectOption) (s : Sel)
    (items : List AutoItem)
    (hopts : s.options = SelectOption.mk "" t :: rest) (hsel : s.selected = some v) :
    (localStep eh items s).selected
      = some (if v ∈ items.map (fun it => it.id) then v else "") := by
  obtain ⟨sopts, ssel, sdis, shelp⟩ := s
  simp only at hopts hsel
  subst hopts hsel
  unfold localStep helpDropNext
  dsimp only
  have key := removeFold_selected t v rest
    (Sel.mk (SelectOption.mk "" t :: rest) (some v) false (shelp.drop 1)) items rfl rfl
  split <;> simpa using key

/-- Setting the value does not change the help paragraphs. -/
theorem setVal_help (s : Sel) (v : String) : (setVal s v).help = s.help := by
  unfold setVal
  split <;> rfl

/-- Setting the value does not change the disabled property. -/
theorem setVal_disabled (s : Sel) (v : String) : (setVal s v).disabled = s.disabled := by
  unfold setVal
  split <;> rfl

/-- Options after local population: the first option followed by one
option per synthesized item. -/
theorem localStep_options (eh : String) (items : List AutoItem) (s : Sel) :
    (localStep eh items s).options
      = s.options.take 1 ++ items.map (fun it => SelectOption.mk it.id it.text) := by
  obtain ⟨sopts, ssel, sdis, shelp⟩ := s
  unfold localStep helpDropNext
  dsimp only
  have hfold := foldAppend_options ssel items
    (removeNotFirst (Sel.mk sopts ssel false (shelp.drop 1)))
  have hrm : (removeNotFirst (Sel.mk sopts ssel false (shelp.drop 1))).options
      = sopts.take 1 := rfl
  rw [hrm] at hfold
  split <;> simpa using hfold

/-- The no-parent handler keeps the option list unchanged. -/
theorem disableNoParent_options (s : Sel) : (disableNoParent s).options = s.options := by
  unfold disableNoParent
  dsimp only
  rw [setVal_options]

/-- Claim C1: on a dependent select whose first option is the empty
placeholder, every repopulation (a successful remote population, or a
local synthesis) retains the previously selected value exactly when it
still occurs among the repopulated option ids, and otherwise clears the
select back to the empty placeholder. -/
theorem claim_C1_retained_or_cleared (errLog eh t v : String) (rest : List SelectOption)
    (s : Sel) (rs items : List AutoItem)
    (hopts : s.options = SelectOption.mk "" t :: rest) (hsel : s.selected = some v) :
    ((remoteStep errLog (AjaxResponse.success rs) s).1.selected
        = some (if v ∈ rs.map (fun it => it.id) then v else ""))
      ∧ ((localStep eh items s).selected
        = some (if v ∈ items.map (fun it => it.id) then v else "")) := by
  obtain ⟨sopts, ssel, sdis, shelp⟩ := s
  simp only at hopts hsel
  subst hopts hsel
  constructor
  · unfold remoteStep helpDropNext
    dsimp only
    exact applySuccess_selected t v rest
      (Sel.mk (SelectOption.mk "" t :: rest) (some v) false (shelp.drop 1)) rs rfl rfl
  · exact localStep_selected eh t v rest
      (Sel.mk (SelectOption.mk "" t :: rest) (some v) sdis shelp) items rfl rfl

/-- A concrete dependent select for the claim C1 witness: an empty
placeholder, one stale option, value 3 selected. -/
def c1sel : Sel :=
  Sel.mk [SelectOption.mk ("") ("---------"), SelectOption.mk ("3") ("old label")]
    (some ("3")) false []

/-- Witness for claim C1 at the concrete select, one remote result
carrying the selected id and an empty local synthesis. -/
theorem claim_C1_witness :
    ((remoteStep ptErrorLog (AjaxResponse.success [AutoItem.mk ("3") ("Tier three")])
        c1sel).1.selected
      = some (if ("3" : String) ∈ [AutoItem.mk ("3") ("Tier three")].map (fun it => it.id)
          then "3" else ""))
      ∧ ((localStep ptEmptyHelp [] c1sel).selected
        = some (if ("3" : String) ∈ ([] : List AutoItem).map (fun it => it.id)
            then "3" else "")) :=
  claim_C1_retained_or_cleared ptErrorLog ptEmptyHelp ("---------") ("3")
    [SelectOption.mk ("3") ("old label")] c1sel [AutoItem.mk ("3") ("Tier three")] [] rfl rfl

/-- Claim C2: a failed autocomplete lookup only logs one diagnostic
line: the select's options and selected value are unchanged by the
error handler, and the issued requests are the same whatever the
response turns out to be, so no retry is issued. -/
theorem claim_C2_error_log_only :
    (∀ (errLog : String) (s : Sel),
      (remoteStep errLog AjaxResponse.error s).1.options = s.options
        ∧ (remoteStep errLog AjaxResponse.error s).1.selected = s.selected
        ∧ (remoteStep errLog AjaxResponse.error s).2 = [errLog])
      ∧ (∀ (p : PageState PTRow) (rs : List AutoItem),
          (filterPricingTiers p (AjaxResponse.success rs)).2.requests
            = (filterPricingTiers p AjaxResponse.error).2.requests)
      ∧ (∀ (q : PageState TFRow) (rs : List AutoItem),
          (filterFields q (AjaxResponse.success rs)).2.requests
            = (filterFields q AjaxResponse.error).2.requests) := by
  refine ⟨fun errLog s => ⟨rfl, rfl, rfl⟩, ?_, ?_⟩
  · intro p rs
    unfold filterPricingTiers runFilter
    cases classify p.pathname p.productVariantVal p.hiddenIdVal <;> rfl
  · intro q rs
    unfold filterFields runFilter
    cases classify q.pathname q.productVariantVal q.hiddenIdVal <;> rfl

/-- Claim C3: local population keeps the first option and appends
exactly the synthesized entries; each row contributes exactly its own
entry, which is absent for a row marked for deletion and is the
single synthesized option when all required sub-fields are filled. -/
theorem claim_C3_row_contribution :
    (∀ (eh : String) (rows : List PTRow) (s : Sel),
        (localStep eh (synthPricingTiers rows) s).options
          = s.options.take 1
              ++ (synthPricingTiers rows).map (fun it => SelectOption.mk it.id it.text))
      ∧ (∀ (pre post : List PTRow) (r : PTRow),
          synthPricingTiers (pre ++ r :: post)
            = synthPricingTiers pre ++ (ptRowItem r).toList ++ synthPricingTiers post)
      ∧ (∀ r : PTRow, r.deleteChecked = true → ptRowItem r = none)
      ∧ (∀ r : PTRow, r.deleteChecked = false → r.tier_type ≠ "" → r.range_start ≠ "" →
          r.range_end ≠ "" →
          ptRowItem r = some (AutoItem.mk (if r.idInput ≠ "" then r.idInput else r.domId)
            (r.tier_type ++ " (" ++ r.range_start ++ "-" ++ r.range_end ++ ")")))
      ∧ (∀ (pre post : List TFRow) (r : TFRow),
          synthTableFields (pre ++ r :: post)
            = synthTableFields pre ++ (tfRowItem r).toList ++ synthTableFields post)
      ∧ (∀ r : TFRow, r.deleteChecked = true → tfRowItem r = none)
      ∧ (∀ r : TFRow, r.deleteChecked = false → r.name ≠ "" → r.field_type ≠ "" →
          tfRowItem r = some (AutoItem.mk (if r.idInput ≠ "" then r.idInput else r.domId)
            (r.name ++ " (" ++ r.field_type ++ ")"))) := by
  refine ⟨?_, ?_, ?_, ?_, ?_, ?_, ?_⟩
  · intro eh rows s
    exact localStep_options eh (synthPricingTiers rows) s
  · intro pre post r
    unfold synthPricingTiers
    cases h : ptRowItem r <;> simp [List.filterMap_append, List.filterMap_cons, h]
  · intro r h
    unfold ptRowItem
    simp [h]
  · intro r h1 h2 h3 h4
    unfold ptRowItem
    simp [h1, h2, h3, h4]
  · intro pre post r
    unfold synthTableFields
    cases h : tfRowItem r <;> simp [List.filterMap_append, List.filterMap_cons, h]
  · intro r h
    unfold tfRowItem
    simp [h]
  · intro r h1 h2
    unfold tfRowItem
    simp [h1, h2]

/-- A deleted pricing-tier row. -/
def c3rowDel : PTRow := PTRow.mk ("pricing_tiers-0") true ("wholesale") ("1") ("10") ("")

/-- A complete pricing-tier row with a persisted id. -/
def c3rowOk : PTRow := PTRow.mk ("pricing_tiers-1") false ("retail") ("2") ("20") ("5")

/-- A complete table-field row without a persisted id. -/
def c3rowTF : TFRow := TFRow.mk ("table_fields-0") false ("width") ("number") ("")

/-- Witness for claim C3 at concrete rows. -/
theorem claim_C3_witness :
    ptRowItem c3rowDel = none
      ∧ ptRowItem c3rowOk
          = some (AutoItem.mk (if c3rowOk.idInput ≠ "" then c3rowOk.idInput else c3rowOk.domId)
              (c3rowOk.tier_type ++ " (" ++ c3rowOk.range_start ++ "-"
                ++ c3rowOk.range_end ++ ")"))
      ∧ tfRowItem c3rowTF
          = some (AutoItem.mk (if c3rowTF.idInput ≠ "" then c3rowTF.idInput else c3rowTF.domId)
              (c3rowTF.name ++ " (" ++ c3rowTF.field_type ++ ")")) :=
  ⟨claim_C3_row_contribution.2.2.1 c3rowDel rfl,
   claim_C3_row_contribution.2.2.2.1 c3rowOk rfl (by decide) (by decide) (by decide),
   claim_C3_row_contribution.2.2.2.2.2.2 c3rowTF rfl (by decide) (by decide)⟩

/-- Claim C4: a row with any required sub-field missing synthesizes no
entry, and the whole routine is silent about it: its resulting selects
and its observable effects are identical with and without the row. -/
theorem claim_C4_missing_fields_skipped :
    (∀ r : PTRow, r.tier_type = "" ∨ r.range_start = "" ∨ r.range_end = "" →
        ptRowItem r = none)
      ∧ (∀ r : TFRow, r.name = "" ∨ r.field_type = "" → tfRowItem r = none)
      ∧ (∀ (pathname pv : String) (hid : Option String) (sels : List Sel)
          (pre post : List PTRow) (r : PTRow) (resp : AjaxResponse),
          ptRowItem r = none →
          (filterPricingTiers (PageState.mk pathname pv hid sels (pre ++ r :: post))
              resp).1.selects
            = (filterPricingTiers (PageState.mk pathname pv hid sels (pre ++ post))
              resp).1.selects
          ∧ (filterPricingTiers (PageState.mk pathname pv hid sels (pre ++ r :: post)) resp).2
            = (filterPricingTiers (PageState.mk pathname pv hid sels (pre ++ post)) resp).2)
      ∧ (∀ (pathname pv : String) (hid : Option String) (sels : List Sel)
          (pre post : List TFRow) (r : TFRow) (resp : AjaxResponse),
          tfRowItem r = none →
          (filterFields (PageState.mk pathname pv hid sels (pre ++ r :: post))
              resp).1.selects
            = (filterFields (PageState.mk pathname pv hid sels (pre ++ post))
              resp).1.selects
          ∧ (filterFields (PageState.mk pathname pv hid sels (pre ++ r :: post)) resp).2
            = (filterFields (PageState.mk pathname pv hid sels (pre ++ post)) resp).2) := by
  refine ⟨?_, ?_, ?_, ?_⟩
  · intro r h
    unfold ptRowItem
    rcases h with h | h | h <;> by_cases hd : r.deleteChecked <;> simp [hd, h]
  · intro r h
    unfold tfRowItem
    rcases h with h | h <;> by_cases hd : r.deleteChecked <;> simp [hd, h]
  · intro pathname pv hid sels pre post r resp hnone
    have hsynth : (pre ++ r :: post).filterMap ptRowItem = (pre ++ post).filterMap ptRowItem := by
      simp [List.filterMap_append, List.filterMap_cons, hnone]
    unfold filterPricingTiers runFilter
    dsimp only
    cases classify pathname pv hid <;> simp [hsynth]
  · intro pathname pv hid sels pre post r resp hnone
    have hsynth : (pre ++ r :: post).filterMap tfRowItem = (pre ++ post).filterMap tfRowItem := by
      simp [List.filterMap_append, List.filterMap_cons, hnone]
    unfold filterFields runFilter
    dsimp only
    cases classify pathname pv hid <;> simp [hsynth]

/-- A pricing-tier row missing its range end. -/
def c4rowPT : PTRow := PTRow.mk ("pricing_tiers-2") false ("retail") ("2") ("") ("")

/-- A table-field row missing its field type. -/
def c4rowTF : TFRow := TFRow.mk ("table_fields-1") false ("height") ("") ("")

/-- Witness for claim C4: at the concrete incomplete rows, no entry is
synthesized, and the routine's output on the ProductVariant add screen
is the same with and without the incomplete row. -/
theorem claim_C4_witness :
    ptRowItem c4rowPT = none
      ∧ tfRowItem c4rowTF = none
      ∧ (filterPricingTiers (PageState.mk ("/admin/ecommerce/productvariant/add/") ("") none
            [c1sel] ([] ++ c4rowPT :: [c3rowOk])) AjaxResponse.error).1.selects
          = (filterPricingTiers (PageState.mk ("/admin/ecommerce/productvariant/add/") ("") none
            [c1sel] ([] ++ [c3rowOk])) AjaxResponse.error).1.selects :=
  ⟨claim_C4_missing_fields_skipped.1 c4rowPT (Or.inr (Or.inr rfl)),
   claim_C4_missing_fields_skipped.2.1 c4rowTF (Or.inr rfl),
   (claim_C4_missing_fields_skipped.2.2.1 ("/admin/ecommerce/productvariant/add/") ("") none
     [c1sel] [] [c3rowOk] c4rowPT AjaxResponse.error
     (claim_C4_missing_fields_skipped.1 c4rowPT (Or.inr (Or.inr rfl)))).1⟩

/-- Claim C6: the id of a synthesized entry is the row's hidden id input
when that input is nonempty, and the row's DOM id attribute otherwise. -/
theorem claim_C6_identifier_choice :
    (∀ r : PTRow, r.deleteChecked = false → r.tier_type ≠ "" → r.range_start ≠ "" →
        r.range_end ≠ "" →
        (r.idInput ≠ "" → (ptRowItem r).map (fun it => it.id) = some r.idInput)
          ∧ (r.idInput = "" → (ptRowItem r).map (fun it => it.id) = some r.domId))
      ∧ (∀ r : TFRow, r.deleteChecked = false → r.name ≠ "" → r.field_type ≠ "" →
          (r.idInput ≠ "" → (tfRowItem r).map (fun it => it.id) = some r.idInput)
            ∧ (r.idInput = "" → (tfRowItem r).map (fun it => it.id) = some r.domId)) := by
  constructor
  · intro r h1 h2 h3 h4
    unfold ptRowItem
    constructor
    · intro hid
      simp [h1, h2, h3, h4, hid]
    · intro hid
      simp [h1, h2, h3, h4, hid]
  · intro r h1 h2 h3
    unfold tfRowItem
    constructor
    · intro hid
      simp [h1, h2, h3, hid]
    · intro hid
      simp [h1, h2, h3, hid]

/-- Witness for claim C6: a persisted pricing-tier row keeps its primary
key and an unsaved table-field row falls back to its DOM id. -/
theorem claim_C6_witness :
    (ptRowItem c3rowOk).map (fun it => it.id) = some c3rowOk.idInput
      ∧ (tfRowItem c3rowTF).map (fun it => it.id) = some c3rowTF.domId :=
  ⟨(claim_C6_identifier_choice.1 c3rowOk rfl (by decide) (by decide) (by decide)).1 (by decide),
   (claim_C6_identifier_choice.2 c3rowTF rfl (by decide) (by decide)).2 rfl⟩

/-- Claim C5: whenever the context detection yields a parent id, the
routine issues exactly one GET request per matching select, to the
unit's autocomplete URL, with exactly the parameters product_variant_id
(the parent id) and q (the empty string). -/
theorem claim_C5_requests (p : PageState PTRow) (q : PageState TFRow) (pid pid' : String)
    (resp resp' : AjaxResponse)
    (hp : classify p.pathname p.productVariantVal p.hiddenIdVal = Outcome.remote pid)
    (hq : classify q.pathname q.productVariantVal q.hiddenIdVal = Outcome.remote pid') :
    (filterPricingTiers p resp).2.requests
        = p.selects.map
            (fun _ => AjaxRequest.mk ptUrl [("product_variant_id", pid), ("q", "")])
      ∧ (filterFields q resp').2.requests
        = q.selects.map
            (fun _ => AjaxRequest.mk tfUrl [("product_variant_id", pid'), ("q", "")]) := by
  constructor
  · unfold filterPricingTiers runFilter
    rw [hp]
  · unfold filterFields runFilter
    rw [hq]

/-- A concrete Item add page with a ProductVariant selected, for the
pricing-tier unit. -/
def c5pagePT : PageState PTRow :=
  PageState.mk ("/admin/ecommerce/item/add/") ("7") none [c1sel] []

/-- A concrete Item add page with a ProductVariant selected, for the
table-field unit. -/
def c5pageTF : PageState TFRow :=
  PageState.mk ("/admin/ecommerce/item/add/") ("9") none [c1sel] []

/-- Witness for claim C5 at the concrete pages. -/
theorem claim_C5_witness :
    (filterPricingTiers c5pagePT AjaxResponse.error).2.requests
        = c5pagePT.selects.map
            (fun _ => AjaxRequest.mk ptUrl [("product_variant_id", "7"), ("q", "")])
      ∧ (filterFields c5pageTF (AjaxResponse.success [])).2.requests
        = c5pageTF.selects.map
            (fun _ => AjaxRequest.mk tfUrl [("product_variant_id", "9"), ("q", "")]) :=
  claim_C5_requests c5pagePT c5pageTF ("7") ("9") AjaxResponse.error
    (AjaxResponse.success []) (by decide) (by decide)

/-- Claim C8: on the Item add screen with no ProductVariant selected,
the routine maps every matching select through the no-parent handler
and issues no request and no log; the handler disables the select,
clears its value, replaces the adjacent help with the single message,
and leaves the options untouched. -/
theorem claim_C8_disabled_state (p : PageState PTRow) (q : PageState TFRow)
    (resp resp' : AjaxResponse)
    (hp1 : containsStr p.pathname itemAddMarker = true) (hp2 : p.productVariantVal = "")
    (hq1 : containsStr q.pathname itemAddMarker = true) (hq2 : q.productVariantVal = "") :
    ((filterPricingTiers p resp).1.selects = p.selects.map disableNoParent
        ∧ (filterPricingTiers p resp).2 = Effect.mk [] []
        ∧ (filterFields q resp').1.selects = q.selects.map disableNoParent
        ∧ (filterFields q resp').2 = Effect.mk [] [])
      ∧ (∀ s : Sel, (disableNoParent s).disabled = true
          ∧ ((disableNoParent s).selected = some "" ∨ (disableNoParent s).selected = none)
          ∧ (disableNoParent s).options = s.options
          ∧ (s.help.length ≤ 1 → (disableNoParent s).help = [itemHelpMsg])) := by
  have hcp : classify p.pathname p.productVariantVal p.hiddenIdVal
      = Outcome.disabledNoParent := by
    unfold classify
    rw [hp2]
    simp [hp1]
  have hcq : classify q.pathname q.productVariantVal q.hiddenIdVal
      = Outcome.disabledNoParent := by
    unfold classify
    rw [hq2]
    simp [hq1]
  refine ⟨⟨?_, ?_, ?_, ?_⟩, ?_⟩
  · unfold filterPricingTiers runFilter
    rw [hcp]
  · unfold filterPricingTiers runFilter
    rw [hcp]
  · unfold filterFields runFilter
    rw [hcq]
  · unfold filterFields runFilter
    rw [hcq]
  · intro s
    refine ⟨?_, ?_, disableNoParent_options s, ?_⟩
    · unfold disableNoParent
      dsimp only
      rw [setVal_disabled]
    · unfold disableNoParent setVal
      dsimp only
      split <;> simp
    · intro hlen
      have hdrop : s.help.drop 1 = [] := by
        cases hh : s.help with
        | nil => rfl
        | cons a l =>
            rw [hh] at hlen
            simp only [List.length_cons] at hlen
            have hl : l = [] := List.eq_nil_of_length_eq_zero (by omega)
            simp [hl]
      unfold disableNoParent
      dsimp only
      rw [setVal_help]
      simp [hdrop]

/-- A concrete Item add page with no ProductVariant selected, for the
pricing-tier unit. -/
def c8pagePT : PageState PTRow :=
  PageState.mk ("/admin/ecommerce/item/add/") ("") none [c1sel] []

/-- A concrete Item add page with no ProductVariant selected, for the
table-field unit. -/
def c8pageTF : PageState TFRow :=
  PageState.mk ("/admin/ecommerce/item/add/") ("") none [c1sel] []

/-- Witness for claim C8 at the concrete pages. -/
theorem claim_C8_witness :
    ((filterPricingTiers c8pagePT AjaxResponse.error).1.selects
          = c8pagePT.selects.map disableNoParent
        ∧ (filterPricingTiers c8pagePT AjaxResponse.error).2 = Effect.mk [] []
        ∧ (filterFields c8pageTF AjaxResponse.error).1.selects
          = c8pageTF.selects.map disableNoParent
        ∧ (filterFields c8pageTF AjaxResponse.error).2 = Effect.mk [] [])
      ∧ (∀ s : Sel, (disableNoParent s).disabled = true
          ∧ ((disableNoParent s).selected = some "" ∨ (disableNoParent s).selected = none)
          ∧ (disableNoParent s).options = s.options
          ∧ (s.help.length ≤ 1 → (disableNoParent s).help = [itemHelpMsg])) :=
  claim_C8_disabled_state c8pagePT c8pageTF AjaxResponse.error AjaxResponse.error
    (by decide) rfl (by decide) rfl

/-- Claim C9 counterexample: a formset notification whose formset name
is neither the unit's inline formset name nor items does not invoke the
routine, refuting invocation on every formset notification. -/
theorem claim_C9_counterexample :
    ptTriggers (UiEvent.formsetAdded ("orders")) = false
      ∧ tfTriggers (UiEvent.formsetAdded ("orders")) = false
      ∧ ptTriggers (UiEvent.formsetRemoved ("orders")) = false
      ∧ tfTriggers (UiEvent.formsetRemoved ("orders")) = false := by
  decide

/-- Claim C9 as amended: the routine is invoked on page load, on the
ProductVariant dropdown change, on formset add and remove notifications
exactly when the formset name is the unit's inline formset or items, and
on change events exactly on the unit's inline sub-fields. -/
theorem claim_C9_amended_bindings :
    (ptTriggers UiEvent.pageLoad = true)
      ∧ (ptTriggers UiEvent.productVariantChange = true)
      ∧ (∀ n, ptTriggers (UiEvent.formsetAdded n) = true
            ↔ n = "pricing_tiers" ∨ n = "items")
      ∧ (∀ n, ptTriggers (UiEvent.formsetRemoved n) = true
            ↔ n = "pricing_tiers" ∨ n = "items")
      ∧ (∀ nm, ptTriggers (UiEvent.fieldChange nm) = true
            ↔ endsWithStr nm ("-tier_type") = true ∨ endsWithStr nm ("-range_start") = true
              ∨ endsWithStr nm ("-range_end") = true)
      ∧ (tfTriggers UiEvent.pageLoad = true)
      ∧ (tfTriggers UiEvent.productVariantChange = true)
      ∧ (∀ n, tfTriggers (UiEvent.formsetAdded n) = true
            ↔ n = "table_fields" ∨ n = "items")
      ∧ (∀ n, tfTriggers (UiEvent.formsetRemoved n) = true
            ↔ n = "table_fields" ∨ n = "items")
      ∧ (∀ nm, tfTriggers (UiEvent.fieldChange nm) = true
            ↔ endsWithStr nm ("-name") = true ∨ endsWithStr nm ("-field_type") = true) := by
  refine ⟨rfl, rfl, ?_, ?_, ?_, rfl, rfl, ?_, ?_, ?_⟩ <;> intro n <;>
    simp [ptTriggers, tfTriggers, or_assoc]

/-- Per-select fact for claim C10: the remote step keeps the first
option of a nonempty option list. -/
theorem remoteStep_head (errLog : String) (resp : AjaxResponse) (s : Sel)
    (h : s.options ≠ []) :
    (remoteStep errLog resp s).1.options.head? = s.options.head? := by
  cases resp with
  | error => rfl
  | success rs =>
      unfold remoteStep helpDropNext
      dsimp only
      rw [applySuccess_options]
      cases hs : s.options with
      | nil => exact absurd hs h
      | cons a l => simp [hs]

/-- Per-select fact for claim C10: the local step keeps the first option
of a nonempty option list. -/
theorem localStep_head (eh : String) (items : List AutoItem) (s : Sel)
    (h : s.options ≠ []) :
    (localStep eh items s).options.head? = s.options.head? := by
  rw [localStep_options]
  cases hs : s.options with
  | nil => exact absurd hs h
  | cons a l => simp [hs]

/-- Shared form of claim C10 over the common routine body. -/
theorem runFilter_head_preserved {ρ : Type} (url errLog eh : String)
    (rowItem : ρ → Option AutoItem) (p : PageState ρ) (resp : AjaxResponse)
    (h : ∀ s ∈ p.selects, s.options ≠ []) :
    ((runFilter url errLog eh rowItem p resp).1.selects).map (fun s => s.options.head?)
      = p.selects.map (fun s => s.options.head?) := by
  unfold runFilter
  cases hc : classify p.pathname p.productVariantVal p.hiddenIdVal with
  | disabledNoParent =>
      dsimp only
      rw [List.map_map]
      apply List.map_congr_left
      intro s hs
      simp [disableNoParent_options]
  | remote pid =>
      dsimp only
      rw [List.map_map, List.map_map]
      apply List.map_congr_left
      intro s hs
      exact remoteStep_head errLog resp s (h s hs)
  | localSynth =>
      dsimp only
      rw [List.map_map]
      apply List.map_congr_left
      intro s hs
      exact localStep_head eh (p.rows.filterMap rowItem) s (h s hs)
  | noop => rfl

/-- Claim C10: every run of either routine, whatever the page and the
response, keeps the first option of every select that has one, so an
initial placeholder option survives every operation. -/
theorem claim_C10_first_option_preserved (p : PageState PTRow) (q : PageState TFRow)
    (resp resp' : AjaxResponse)
    (hp : ∀ s ∈ p.selects, s.options ≠ []) (hq : ∀ s ∈ q.selects, s.options ≠ []) :
    (filterPricingTiers p resp).1.selects.map (fun s => s.options.head?)
        = p.selects.map (fun s => s.options.head?)
      ∧ (filterFields q resp').1.selects.map (fun s => s.options.head?)
        = q.selects.map (fun s => s.options.head?) :=
  ⟨runFilter_head_preserved ptUrl ptErrorLog ptEmptyHelp ptRowItem p resp hp,
   runFilter_head_preserved tfUrl tfErrorLog tfEmptyHelp tfRowItem q resp' hq⟩

/-- Witness for claim C10 at concrete pages: a remote success on a
change page and a local synthesis on the add page. -/
theorem claim_C10_witness :
    (filterPricingTiers
          (PageState.mk ("/admin/ecommerce/productvariant/5/change/") ("") none [c1sel] [])
          (AjaxResponse.success [AutoItem.mk ("8") ("Tier eight")])).1.selects.map
        (fun s => s.options.head?)
        = (PageState.mk ("/admin/ecommerce/productvariant/5/change/") ("") none [c1sel]
            ([] : List PTRow)).selects.map (fun s => s.options.head?)
      ∧ (filterFields
          (PageState.mk ("/admin/ecommerce/productvariant/add/") ("") none [c1sel] [c3rowTF])
          AjaxResponse.error).1.selects.map (fun s => s.options.head?)
        = (PageState.mk ("/admin/ecommerce/productvariant/add/") ("") none [c1sel]
            [c3rowTF]).selects.map (fun s => s.options.head?) :=
  claim_C10_first_option_preserved
    (PageState.mk ("/admin/ecommerce/productvariant/5/change/") ("") none [c1sel] [])
    (PageState.mk ("/admin/ecommerce/productvariant/add/") ("") none [c1sel] [c3rowTF])
    (AjaxResponse.success [AutoItem.mk ("8") ("Tier eight")]) AjaxResponse.error
    (by intro s hs; simp at hs; subst hs; decide)
    (by intro s hs; simp at hs; subst hs; decide)

/-- A list is a Boolean prefix of itself followed by anything. -/
theorem isPrefixOf_append_self (l m : List Char) : l.isPrefixOf (l ++ m) = true := by
  induction l with
  | nil => simp [List.isPrefixOf]
  | cons a l ih => simp [List.isPrefixOf, ih]

/-- A list is a Boolean prefix of itself. -/
theorem isPrefixOf_self (l : List Char) : l.isPrefixOf l = true := by
  have h := isPrefixOf_append_self l []
  rw [List.append_nil] at h
  exact h

/-- The greedy digit span of an all-digit list followed by the change
suffix consumes exactly the digits. -/
theorem digitSpan_change (ds : List Char) (h : ∀ c ∈ ds, c.isDigit = true) :
    digitSpan (ds ++ changeMarker.data) = (ds, changeMarker.data) := by
  induction ds with
  | nil => decide
  | cons c cs ih =>
      have hc : c.isDigit = true := h c (List.mem_cons_self c cs)
      have ihs := ih (fun x hx => h x (List.mem_cons_of_mem c hx))
      simp [digitSpan, hc, ihs]

/-- The change-page pattern matches at the start of the marker followed
by nonempty digits and the change suffix, capturing the digits. -/
theorem tryMatchAt_pv (ds : List Char) (h1 : ds ≠ []) (h2 : ∀ c ∈ ds, c.isDigit = true) :
    tryMatchAt (pvMarker.data ++ (ds ++ changeMarker.data)) = some ds := by
  unfold tryMatchAt
  rw [isPrefixOf_append_self]
  dsimp only
  rw [List.drop_left]
  rw [digitSpan_change ds h2]
  simp [h1, isPrefixOf_self]

/-- The change-page pattern never matches at a position whose first
character is not a slash. -/
theorem tryMatchAt_fail_head (c : Char) (rest : List Char) (hc : ¬ c = '/') :
    tryMatchAt (c :: rest) = none := by
  unfold tryMatchAt
  have hpre : pvMarker.data.isPrefixOf (c :: rest) = false := by
    rw [show pvMarker.data = '/' :: ("ecommerce/productvariant/").data from rfl]
    simp only [List.isPrefixOf, Bool.and_eq_false_imp]
    intro hb
    exact absurd ((beq_iff_eq).mp hb).symm hc
  rw [hpre]
  simp

/-- The change-page pattern never matches at a slash followed by the
letter a (as in the admin path segment). -/
theorem tryMatchAt_fail_slash_a (rest : List Char) :
    tryMatchAt ('/' :: 'a' :: rest) = none := by
  unfold tryMatchAt
  have hpre : pvMarker.data.isPrefixOf ('/' :: 'a' :: rest) = false := by
    rw [show pvMarker.data = '/' :: 'e' :: ("commerce/productvariant/").data from rfl]
    simp only [List.isPrefixOf]
    rw [show (('/' : Char) == '/') = true from rfl, show (('e' : Char) == 'a') = false from rfl]
    rfl
  rw [hpre]
  simp

/-- Scanning a cons whose position does not match continues with the
tail. -/
theorem scanDigits_cons_none (c : Char) (rest : List Char)
    (h : tryMatchAt (c :: rest) = none) : scanDigits (c :: rest) = scanDigits rest := by
  conv_lhs => unfold scanDigits
  rw [h]

/-- Scanning a cons whose position matches returns the capture. -/
theorem scanDigits_cons_some (c : Char) (rest ds : List Char)
    (h : tryMatchAt (c :: rest) = some ds) : scanDigits (c :: rest) = some ds := by
  conv_lhs => unfold scanDigits
  rw [h]

/-- The leftmost scan skips the admin path segment. -/
theorem scanDigits_admin (tail : List Char) :
    scanDigits (("/admin").data ++ tail) = scanDigits tail := by
  rw [show ("/admin").data = '/' :: 'a' :: 'd' :: 'm' :: 'i' :: 'n' :: [] from rfl]
  rw [List.cons_append, List.cons_append, List.cons_append, List.cons_append,
    List.cons_append, List.cons_append, List.nil_append]
  rw [scanDigits_cons_none _ _ (tryMatchAt_fail_slash_a _)]
  rw [scanDigits_cons_none _ _ (tryMatchAt_fail_head 'a' _ (by decide))]
  rw [scanDigits_cons_none _ _ (tryMatchAt_fail_head 'd' _ (by decide))]
  rw [scanDigits_cons_none _ _ (tryMatchAt_fail_head 'm' _ (by decide))]
  rw [scanDigits_cons_none _ _ (tryMatchAt_fail_head 'i' _ (by decide))]
  rw [scanDigits_cons_none _ _ (tryMatchAt_fail_head 'n' _ (by decide))]

/-- The leftmost scan of the marker, digits and the change suffix
captures the digits. -/
theorem scanDigits_pv (ds : List Char) (h1 : ds ≠ []) (h2 : ∀ c ∈ ds, c.isDigit = true) :
    scanDigits (pvMarker.data ++ (ds ++ changeMarker.data)) = some ds := by
  have hmatch := tryMatchAt_pv ds h1 h2
  have hsh : pvMarker.data ++ (ds ++ changeMarker.data)
      = '/' :: (("ecommerce/productvariant/").data ++ (ds ++ changeMarker.data)) := by
    rw [show pvMarker.data = '/' :: ("ecommerce/productvariant/").data from rfl]
    rfl
  rw [hsh] at hmatch ⊢
  exact scanDigits_cons_some _ _ ds hmatch

/-- Claim C7: on an admin edit screen for ProductVariant id given by a
nonempty digit sequence (a path that matches the change regex and
contains neither add-page marker), the detector extracts exactly that
digit sequence from the path and the routine classifies the page as
remote population with it. -/
theorem claim_C7_change_page (ds : List Char) (pv : String) (hid : Option String)
    (h1 : ds ≠ []) (h2 : ∀ c ∈ ds, c.isDigit = true)
    (h3 : containsStr (mkChangePath ds) itemAddMarker = false)
    (h4 : containsStr (mkChangePath ds) pvAddMarker = false) :
    extractVariantId (mkChangePath ds) = some (String.mk ds)
      ∧ classify (mkChangePath ds) pv hid = Outcome.remote (String.mk ds) := by
  have hdata : (mkChangePath ds).data
      = ("/admin").data ++ (pvMarker.data ++ (ds ++ changeMarker.data)) := by
    unfold mkChangePath
    rw [String.data_append, String.data_append]
    rw [show ("/admin/ecommerce/productvariant/").data
        = ("/admin").data ++ pvMarker.data by decide]
    rw [show (String.mk ds).data = ds from rfl]
    rw [show ("/change/").data = changeMarker.data from rfl]
    simp [List.append_assoc]
  have hextract : extractVariantId (mkChangePath ds) = some (String.mk ds) := by
    unfold extractVariantId
    rw [hdata, scanDigits_admin, scanDigits_pv ds h1 h2]
    rfl
  refine ⟨hextract, ?_⟩
  unfold classify
  rw [h3, h4]
  simp only [Bool.false_eq_true, if_false]
  rw [hextract]

/-- Witness for claim C7 at the concrete id 5. -/
theorem claim_C7_witness :
    extractVariantId (mkChangePath ['5']) = some (String.mk ['5'])
      ∧ classify (mkChangePath ['5']) ("") none = Outcome.remote (String.mk ['5']) :=
  claim_C7_change_page ['5'] ("") none (by decide) (by decide) (by decide) (by decide)

end Praco
